import Mathlib

/-!
Verification development for the import-hook pipeline in src/pwcp/hooks.py.

The Python module is shallowly embedded below: each Python function is
translated into an executable Lean definition over explicit state
(dictionaries become functions into Option, exceptions become Except,
Python truthiness is made explicit where the source relies on it).
External collaborators that are not part of hooks.py (the preprocessor,
the host interpreter services such as linecache.getlines, os.getcwd,
PathFinder.find_spec and the path hooks) are parameters of the
definitions, or, for the preprocessor, modelled from the specification.
-/

deriving instance DecidableEq for Except

namespace PWCP

/-- Python exceptions that the code in hooks.py can observe or raise.
The `other` constructor stands for every exception class the code does
not catch specially. -/
inductive PyExc where
  | attributeError
  | importError
  | fileNotFoundError
  | indexError
  | typeError
  | other (id : Nat)
deriving DecidableEq, Repr

/-- The configuration dictionary passed to install and shared with
PPyLoader and PPyPathFinder.  The code only ever reads the
prefer_python key (by truthiness); all other keys are opaque
pass-through values for the preprocessor, modelled as an association
list. -/
structure Config where
  prefer_python : Bool
  passthrough : List (String × String)
deriving DecidableEq, Repr

/-- Cut a character list at every newline, dropping the terminators. -/
def splitNl (acc : List Char) : List Char → List String
  | [] => [String.mk acc.reverse]
  | c :: cs =>
      if c = '\n' then String.mk acc.reverse :: splitNl [] cs
      else splitNl (c :: acc) cs

/-- Python str.splitlines restricted to the newline character: the text
is cut at every newline, terminators are dropped, and a trailing
newline does not produce a trailing empty line (so an empty string has
no lines at all). -/
def splitlines (s : String) : List String :=
  if s = "" then []
  else if s.data.getLast? = some '\n' then (splitNl [] s.data).dropLast
  else splitNl [] s.data

/-- Python list indexing with possibly negative index: a negative index
counts from the end, and an out-of-range index raises IndexError. -/
def pyGet (l : List String) (i : Int) : Except PyExc String :=
  let j : Int := if i < 0 then (l.length : Int) + i else i
  if j < 0 then .error .indexError
  else
    match l.get? j.toNat with
    | some x => .ok x
    | none => .error .indexError

/-- The TransformCache: the module-level dictionary preprocessed_files,
mapping a file path to its most recently produced transformed text. -/
def TCache := String → Option String

/-- The empty preprocessed_files dictionary, as at module import time. -/
def emptyCache : TCache := fun _ => none

/-- Dictionary store: preprocessed_files with the entry for one path
set (created or overwritten). -/
def cacheSet (c : TCache) (path data : String) : TCache :=
  fun q => if q = path then some data else c q

/-- patched_getlines from hooks.py: if the filename has an entry in
preprocessed_files, return that entry split into lines; otherwise
delegate to the original linecache.getlines (a host service, here a
parameter) with the same arguments. -/
def patched_getlines (getlines : String → Option Unit → List String)
    (cache : TCache) (filename : String) (module_globals : Option Unit) : List String :=
  match cache filename with
  | some data => splitlines data
  | none => getlines filename module_globals

/-- Modelled from the spec: `preprocess` lives in src/pwcp/preprocessor.py,
which is not under src/.  The spec describes the preprocessor as an
external pure function from source text and configuration to rewritten
text, invoked by the loader on the raw content of the file; the call
site in hooks.py hands it the path, so reading the file is folded into
the call.  The file system is a parameter `fs`; a missing file raises
FileNotFoundError, and any exception raised by the transform itself
(parameter `tf`) propagates unmodified. -/
def preprocess (tf : String → Config → Except PyExc String)
    (fs : String → Option String) (path : String) (config : Config) :
    Except PyExc String :=
  match fs path with
  | none => .error .fileNotFoundError
  | some raw => tf raw config

/-- PPyLoader.get_data from hooks.py: run the preprocessor on the
loader's path with the active configuration, store the result in
preprocessed_files under that path, and return it (the final bytes
encoding step of the source is the identity on the text here).  The
chained assignment in the source evaluates the preprocessor first, so
on an exception the cache is returned untouched. -/
def PPyLoader_get_data (tf : String → Config → Except PyExc String)
    (fs : String → Option String) (config : Config) (path : String)
    (cache : TCache) : Except PyExc String × TCache :=
  match preprocess tf fs path config with
  | .error e => (.error e, cache)
  | .ok data => (.ok data, cacheSet cache path data)

/-- One traceback frame; the handler only reads the code objects file
name (tb_frame.f_code.co_filename). -/
structure Frame where
  filename : String
deriving DecidableEq, Repr

/-- The data of the exception object that handle_exc inspects and
mutates: whether it is a SyntaxError, and the filename, lineno and text
attributes a SyntaxError carries (lineno may be absent). -/
structure ExcInfo where
  isSyntaxError : Bool
  filename : String
  lineno : Option Int
  text : Option String
deriving DecidableEq, Repr

/-- Python truthiness of preprocessed_files.get(filename): a missing
entry yields None (falsy) and an empty-string entry is falsy as well. -/
def entryTruthy (cache : TCache) (filename : String) : Bool :=
  match cache filename with
  | some data => data ≠ ""
  | none => false

/-- The while loop of handle_exc: drop frames from the front of the
traceback while the traceback is nonempty, the module is present, and
the frame file differs from the module file. -/
def trimTb (module : Option String) : List Frame → List Frame
  | [] => []
  | f :: rest =>
    match module with
    | none => f :: rest
    | some m => if f.filename ≠ m then trimTb module rest else f :: rest

/-- The first block of handle_exc from create_exception_handler in
hooks.py: if the exception is a SyntaxError and
preprocessed_files.get(filename) is truthy, replace its text attribute
with line lineno of the cached transformed text (Python indexing at
lineno - 1; an absent lineno makes the subtraction raise TypeError);
otherwise leave the exception alone. -/
def fixText (cache : TCache) (e : ExcInfo) : Except PyExc ExcInfo :=
  if e.isSyntaxError && entryTruthy cache e.filename then
    match cache e.filename, e.lineno with
    | some data, some n =>
        (pyGet (splitlines data) (n - 1)).map
          (fun line => { e with text := some line })
    | some _, none => .error .typeError
    | none, _ => .ok e
  else .ok e

/-- handle_exc from create_exception_handler in hooks.py: fix the text
of a SyntaxError from the transform cache, trim the outer frames, and
hand the pair to print_exception.  The returned pair is what gets
printed; an error is an exception escaping the handler itself. -/
def handle_exc (cache : TCache) (module : Option String)
    (e : ExcInfo) (tb : List Frame) : Except PyExc (ExcInfo × List Frame) :=
  match fixText cache e with
  | .error err => .error err
  | .ok e2 => .ok (e2, trimTb module tb)

/-- A module spec as find_spec_fallback observes it: importlib specs
carry a name and a loader attribute that may be None; loaders are
opaque objects identified by a number here. -/
structure ModSpec where
  name : String
  loader : Option Nat
deriving DecidableEq, Repr

/-- One entry of sys.meta_path as seen by find_spec_fallback for a
fixed lookup (fullname, path, target).  isPPy marks the PPyPathFinder
class itself.  findSpec is the outcome of calling finder.find_spec on
these arguments; an AttributeError outcome covers both a finder without
that method and one whose method raises AttributeError, since the
except clause in the source cannot tell them apart.  findModule is the
outcome of the legacy finder.find_module call. -/
structure Finder where
  isPPy : Bool
  findSpec : Except PyExc (Option ModSpec)
  findModule : Except PyExc (Option Nat)
deriving DecidableEq, Repr

/-- importlib.util.spec_from_loader: wrap a (non-None) legacy loader
into a spec for the requested name. -/
def spec_from_loader (fullname : String) (loader : Nat) : ModSpec :=
  ⟨fullname, some loader⟩

/-- Python truthiness of the test given by spec and spec.loader: the
spec is not None and its loader attribute is not None. -/
def specUsable : Option ModSpec → Bool
  | some s => s.loader.isSome
  | none => false

/-- The loop of find_spec_fallback, with the spec variable threaded
through iterations exactly as in the source: the variable keeps its
previous value when the legacy branch finds no loader, and the loop
falls off the end returning None. -/
def find_spec_fallback_aux (fullname : String) :
    List Finder → Option ModSpec → Except PyExc (Option ModSpec)
  | [], _ => .ok none
  | f :: rest, spec =>
    if f.isPPy then find_spec_fallback_aux fullname rest spec
    else
      match f.findSpec with
      | .ok s =>
          if specUsable s then .ok s
          else find_spec_fallback_aux fullname rest s
      | .error .attributeError =>
          match f.findModule with
          | .ok (some l) =>
              let s := some (spec_from_loader fullname l)
              if specUsable s then .ok s
              else find_spec_fallback_aux fullname rest s
          | .ok none =>
              if specUsable spec then .ok spec
              else find_spec_fallback_aux fullname rest spec
          | .error e => .error e
      | .error e => .error e

/-- find_spec_fallback from hooks.py: iterate sys.meta_path with the
spec variable initially None. -/
def find_spec_fallback (fullname : String) (metaPath : List Finder) :
    Except PyExc (Option ModSpec) :=
  find_spec_fallback_aux fullname metaPath none

/-- Modelled from the spec words for one resolver of the FallbackChain:
attempt the new-style query interface, and if that interface is absent
fall back to the legacy query interface and adapt its result into a
spec; an unsupported-interface error on the modern call selects the
legacy path, any other exception is not swallowed. -/
def resolverAttempt (fullname : String) (f : Finder) :
    Except PyExc (Option ModSpec) :=
  match f.findSpec with
  | .ok s => .ok s
  | .error .attributeError =>
      match f.findModule with
      | .ok (some l) => .ok (some (spec_from_loader fullname l))
      | .ok none => .ok none
      | .error e => .error e
  | .error e => .error e

/-- Modelled from the spec words for the whole FallbackChain: iterate
the registered resolver chain skipping the distinguished resolver
itself; the first resolver whose attempt yields a loadable unit with a
non-empty loader wins; exceptions from an attempt propagate. -/
def fallbackChainSpec (fullname : String) : List Finder → Except PyExc (Option ModSpec)
  | [] => .ok none
  | f :: rest =>
    if f.isPPy then fallbackChainSpec fullname rest
    else
      match resolverAttempt fullname f with
      | .error e => .error e
      | .ok r =>
          if specUsable r then .ok r
          else fallbackChainSpec fullname rest

/-- PPyPathFinder.find_spec from hooks.py: when the active
configuration has prefer_python set (truthily), first consult
find_spec_fallback and return its spec immediately when it found one;
otherwise run the inherited PathFinder search (a host service, here the
parameter superSpec) and return its spec only when both the spec and
its loader are not None. -/
def PPyPathFinder_find_spec (config : Config) (fullname : String)
    (metaPath : List Finder) (superSpec : Option ModSpec) :
    Except PyExc (Option ModSpec) :=
  if config.prefer_python then
    match find_spec_fallback fullname metaPath with
    | .error e => .error e
    | .ok (some s) => .ok (some s)
    | .ok none =>
        match superSpec with
        | some s => if s.loader.isSome then .ok (some s) else .ok none
        | none => .ok none
  else
    match superSpec with
    | some s => if s.loader.isSome then .ok (some s) else .ok none
    | none => .ok none

/-- A directory finder as stored in the module-level
_path_importer_cache: an opaque identity, whether it has an
invalidate_caches attribute, and whether that method has been called on
it. -/
structure FinderV where
  id : Nat
  supportsInvalidate : Bool
  invalidated : Bool
deriving DecidableEq, Repr

/-- The module-level _path_importer_cache dictionary: a stored value of
some none is a memoized negative result (the None that _path_hooks
returned). -/
def ICache := String → Option (Option FinderV)

/-- PPyPathFinder._path_hooks from hooks.py: try each hook of the
module-level _path_hooks list on the path and return the first result
whose call does not raise ImportError; if every hook raises
ImportError, return None.  Any other exception propagates. -/
def PPyPathFinder_path_hooksRun (hooks : List (String → Except PyExc FinderV))
    (path : String) : Except PyExc (Option FinderV) :=
  match hooks with
  | [] => .ok none
  | h :: rest =>
    match h path with
    | .ok f => .ok (some f)
    | .error .importError => PPyPathFinder_path_hooksRun rest path
    | .error e => .error e

/-- The dictionary access part of PPyPathFinder._path_importer_cache:
return the memoized value for the path, or on a KeyError build one via
_path_hooks and store it (also when it is the negative None). -/
def lookupOrBuild (hooks : List (String → Except PyExc FinderV))
    (cache : ICache) (path : String) :
    Except PyExc (Option FinderV) × ICache :=
  match cache path with
  | some v => (.ok v, cache)
  | none =>
    match PPyPathFinder_path_hooksRun hooks path with
    | .error e => (.error e, cache)
    | .ok v => (.ok v, fun q => if q = path then some v else cache q)

/-- PPyPathFinder._path_importer_cache from hooks.py: an empty path is
replaced by the current working directory (a host service, here the
parameter cwd, none meaning os.getcwd raised FileNotFoundError, in
which case None is returned and nothing is cached); then the memoized
lookup runs on the resulting path. -/
def PPyPathFinder_path_importer_cache
    (hooks : List (String → Except PyExc FinderV)) (cwd : Option String)
    (cache : ICache) (path : String) :
    Except PyExc (Option FinderV) × ICache :=
  if path = "" then
    match cwd with
    | none => (.ok none, cache)
    | some c => lookupOrBuild hooks cache c
  else lookupOrBuild hooks cache path

/-- The call finder.invalidate_caches() guarded by hasattr: a finder
that supports invalidation is marked invalidated, any other is left
alone. -/
def finderInvalidate (f : FinderV) : FinderV :=
  if f.supportsInvalidate then { f with invalidated := true } else f

/-- The module-level mutable state that
PPyPathFinder.invalidate_caches can possibly touch: the TransformCache
(preprocessed_files), the ResolverCache (_path_importer_cache) and the
InstallationState (the done flag of the install closure). -/
structure HookState where
  preprocessed_files : TCache
  path_importer_cache : ICache
  done : Bool

/-- PPyPathFinder.invalidate_caches from hooks.py: iterate the values
of _path_importer_cache and call invalidate_caches on each one that has
that attribute (a memoized None has no attributes and is skipped).  The
dictionary itself is not cleared and no other state is written. -/
def PPyPathFinder_invalidate_caches (s : HookState) : HookState :=
  { s with
    path_importer_cache :=
      fun p => (s.path_importer_cache p).map (Option.map finderInvalidate) }

/-- One entry of sys.meta_path for the installer model: the
PPyPathFinder class or some other finder object. -/
inductive MetaEntry where
  | ppyPathFinder
  | native (id : Nat)
deriving DecidableEq, Repr

/-- One entry of the module-level _path_hooks list: the
FileFinder.path_hook(LOADER_DETAILS) hook for the special extension, or
some other hook. -/
inductive PathHookE where
  | ppyExtensionHook
  | native (id : Nat)
deriving DecidableEq, Repr

/-- The global state read and written by the install closure: the done
flag captured by _install, sys.meta_path, the module-level _path_hooks
list, sys.path_importer_cache, the two class-level configurations set
by set_config, and the flags for the linecache patch and the
importlib.invalidate_caches call. -/
structure InstallerState where
  done : Bool
  meta_path : List MetaEntry
  path_hooks : List PathHookE
  sys_path_importer_cache : List (String × Nat)
  loader_config : Config
  finder_config : Config
  getlines_patched : Bool
  importlib_invalidated : Bool
deriving DecidableEq, Repr

/-- install from hooks.py (the closure returned by _install): always
reset both class configurations to the argument; then, only when the
done flag is still unset, insert PPyPathFinder at the front of
sys.meta_path, append the extension path hook to _path_hooks, clear
sys.path_importer_cache, invalidate the importlib caches, patch
linecache.getlines, and set the done flag. -/
def install (s : InstallerState) (config : Config) : InstallerState :=
  let s := { s with loader_config := config, finder_config := config }
  if s.done then s
  else
    { s with
      meta_path := MetaEntry.ppyPathFinder :: s.meta_path,
      path_hooks := s.path_hooks ++ [PathHookE.ppyExtensionHook],
      sys_path_importer_cache := [],
      importlib_invalidated := true,
      getlines_patched := true,
      done := true }

/-- A process-lifetime event touching the TransformCache: a load of a
path through PPyLoader.get_data whose preprocessor call had the given
outcome, or a request for the diagnostic lines of a path through
patched_getlines. -/
inductive Event where
  | load (path : String) (outcome : Except PyExc String)
  | reqLines (path : String)
deriving DecidableEq, Repr

/-- The effect of one event on preprocessed_files: a load runs
PPyLoader.get_data (the preprocessor parameters are fixed so that the
preprocessor call yields exactly the recorded outcome); a diagnostic
request runs patched_getlines, which only reads the cache, so the cache
is returned unchanged. -/
def stepEvent (cache : TCache) : Event → TCache
  | .load p outcome =>
      (PPyLoader_get_data (fun _ _ => outcome) (fun _ => some "")
        ⟨false, []⟩ p cache).2
  | .reqLines p =>
      let _ := patched_getlines (fun _ _ => []) cache p none
      cache

/-- Run a sequence of events against preprocessed_files. -/
def runEvents (cache : TCache) : List Event → TCache
  | [] => cache
  | e :: rest => runEvents (stepEvent cache e) rest

/-! Theorems. -/

/-- C4: for every path and module_globals argument, if
preprocessed_files has an entry for the path, patched_getlines returns
that entry split into lines; otherwise it returns exactly what the
original linecache.getlines returns for the same arguments. -/
theorem claim_C4_patched_getlines (getlines : String → Option Unit → List String)
    (cache : TCache) (filename : String) (mg : Option Unit) :
    (∀ data, cache filename = some data →
      patched_getlines getlines cache filename mg = splitlines data) ∧
    (cache filename = none →
      patched_getlines getlines cache filename mg = getlines filename mg) := by
  constructor
  · intro data h
    simp [patched_getlines, h]
  · intro h
    simp [patched_getlines, h]

def c4Cache : TCache := cacheSet emptyCache "a.ppy" "x\ny"

theorem claim_C4_witness :
    c4Cache "a.ppy" = some "x\ny" ∧
    patched_getlines (fun _ _ => []) c4Cache "a.ppy" none = splitlines "x\ny" :=
  ⟨by decide, (claim_C4_patched_getlines (fun _ _ => []) c4Cache "a.ppy" none).1
    "x\ny" (by decide)⟩

/-- C10: if the preprocessor raises during PPyLoader.get_data, the
exception propagates and preprocessed_files is returned exactly as it
was, the entry for the path neither created, overwritten nor removed. -/
theorem claim_C10_preprocess_failure (tf : String → Config → Except PyExc String)
    (fs : String → Option String) (config : Config) (path : String)
    (cache : TCache) (err : PyExc)
    (h : preprocess tf fs path config = .error err) :
    PPyLoader_get_data tf fs config path cache = (.error err, cache) := by
  simp [PPyLoader_get_data, h]

def c10tf : String → Config → Except PyExc String := fun _ _ => .error (.other 7)

theorem claim_C10_witness :
    preprocess c10tf (fun _ => some "src") "a.ppy" ⟨false, []⟩ = .error (.other 7) ∧
    PPyLoader_get_data c10tf (fun _ => some "src") ⟨false, []⟩ "a.ppy" emptyCache
      = (.error (.other 7), emptyCache) :=
  ⟨rfl, claim_C10_preprocess_failure c10tf (fun _ => some "src") ⟨false, []⟩
    "a.ppy" emptyCache (.other 7) rfl⟩

/-- C2: each call of PPyLoader.get_data for a path reads the current
file content, hands the raw text and the active configuration to the
preprocessor, returns the transformed result, and stores it in
preprocessed_files under the path, overwriting any previous entry and
touching no other entry; so after the on-disk content changes, a second
load leaves the entry reflecting the second content. -/
theorem claim_C2_get_data (tf : String → Config → Except PyExc String)
    (fs1 fs2 : String → Option String) (config : Config)
    (P t1 t2 d1 d2 : String) (cache : TCache)
    (h1 : fs1 P = some t1) (htf1 : tf t1 config = .ok d1)
    (h2 : fs2 P = some t2) (htf2 : tf t2 config = .ok d2) :
    (PPyLoader_get_data tf fs1 config P cache).1 = .ok d1 ∧
    (PPyLoader_get_data tf fs1 config P cache).2 P = some d1 ∧
    (∀ q, q ≠ P → (PPyLoader_get_data tf fs1 config P cache).2 q = cache q) ∧
    (PPyLoader_get_data tf fs2 config P
      (PPyLoader_get_data tf fs1 config P cache).2).1 = .ok d2 ∧
    (PPyLoader_get_data tf fs2 config P
      (PPyLoader_get_data tf fs1 config P cache).2).2 P = some d2 := by
  refine ⟨?_, ?_, ?_, ?_, ?_⟩
  · simp [PPyLoader_get_data, preprocess, h1, htf1]
  · simp [PPyLoader_get_data, preprocess, h1, htf1, cacheSet]
  · intro q hq
    simp [PPyLoader_get_data, preprocess, h1, htf1, cacheSet, hq]
  · simp [PPyLoader_get_data, preprocess, h1, htf1, h2, htf2]
  · simp [PPyLoader_get_data, preprocess, h1, htf1, h2, htf2, cacheSet]

def c2tf : String → Config → Except PyExc String := fun raw _ => .ok (raw ++ "!")

theorem claim_C2_witness :
    (PPyLoader_get_data c2tf (fun _ => some "one") ⟨false, []⟩ "a.ppy" emptyCache).2
        "a.ppy" = some "one!" ∧
    (PPyLoader_get_data c2tf (fun _ => some "two") ⟨false, []⟩ "a.ppy"
      (PPyLoader_get_data c2tf (fun _ => some "one") ⟨false, []⟩ "a.ppy"
        emptyCache).2).2 "a.ppy" = some "two!" :=
  ⟨(claim_C2_get_data c2tf (fun _ => some "one") (fun _ => some "two") ⟨false, []⟩
      "a.ppy" "one" "two" "one!" "two!" emptyCache rfl rfl rfl rfl).2.1,
   (claim_C2_get_data c2tf (fun _ => some "one") (fun _ => some "two") ⟨false, []⟩
      "a.ppy" "one" "two" "one!" "two!" emptyCache rfl rfl rfl rfl).2.2.2.2⟩

theorem trimTb_eq_dropWhile (m : String) (tb : List Frame) :
    trimTb (some m) tb = tb.dropWhile (fun f => f.filename != m) := by
  induction tb with
  | nil => rfl
  | cons f rest ih =>
    rw [List.dropWhile_cons]
    by_cases hf : f.filename = m
    · simp [trimTb, hf]
    · simp [trimTb, hf, ih]

/-- C6: when an entry module is present, the handler drops frames from
the front of the traceback exactly while their file differs from the
entry module file, stopping at the first entry-module frame or when the
traceback is exhausted; the printed trace is that suffix. -/
theorem claim_C6_trace_trimming (cache : TCache) (m : String) (e : ExcInfo)
    (tb : List Frame) (e2 : ExcInfo) (tb2 : List Frame)
    (h : handle_exc cache (some m) e tb = .ok (e2, tb2)) :
    tb2 = tb.dropWhile (fun f => f.filename != m) := by
  unfold handle_exc at h
  cases hfix : fixText cache e with
  | error err => rw [hfix] at h; exact absurd h (by simp)
  | ok e3 =>
    rw [hfix] at h
    simp only [Except.ok.injEq, Prod.mk.injEq] at h
    rw [← h.2, trimTb_eq_dropWhile]

def c6E : ExcInfo := ⟨false, "", none, none⟩

def c6Tb : List Frame := [⟨"loader.py"⟩, ⟨"main.ppy"⟩]

theorem claim_C6_witness :
    handle_exc emptyCache (some "main.ppy") c6E c6Tb
      = .ok (c6E, [⟨"main.ppy"⟩]) ∧
    ([⟨"main.ppy"⟩] : List Frame)
      = c6Tb.dropWhile (fun f => f.filename != "main.ppy") :=
  ⟨by decide, claim_C6_trace_trimming emptyCache "main.ppy" c6E c6Tb c6E
    [⟨"main.ppy"⟩] (by decide)⟩

/-- C5 (amended): when the handler receives a SyntaxError whose failing
file path maps to a non-empty entry in preprocessed_files, it replaces
the captured offending-line text with line lineno (1-indexed) of the
transformed text before the pair is printed; for errors that are not
syntax errors, or whose path has no entry at all, the captured text is
left unchanged. -/
theorem claim_C5_syntax_error_text (cache : TCache) (module : Option String)
    (e : ExcInfo) (tb : List Frame) (data line : String) (n : Int) :
    (e.isSyntaxError = true → cache e.filename = some data → data ≠ "" →
      e.lineno = some n → 1 ≤ n →
      (splitlines data).get? (n.toNat - 1) = some line →
      handle_exc cache module e tb
        = .ok ({ e with text := some line }, trimTb module tb)) ∧
    (e.isSyntaxError = false ∨ cache e.filename = none →
      handle_exc cache module e tb = .ok (e, trimTb module tb)) := by
  constructor
  · intro hsyn hdata hne hln hn hline
    have htr : entryTruthy cache e.filename = true := by
      simp [entryTruthy, hdata, hne]
    have hget : pyGet (splitlines data) (n - 1) = .ok line := by
      unfold pyGet
      have hnn : ¬ (n - 1 < 0) := by omega
      have hj : (n - 1).toNat = n.toNat - 1 := by omega
      simp only [if_neg hnn, hj, hline]
    simp [handle_exc, fixText, hsyn, htr, hdata, hln, hget, Except.map]
  · intro hcase
    cases hcase with
    | inl hs => simp [handle_exc, fixText, hs]
    | inr hc => simp [handle_exc, fixText, entryTruthy, hc]

def c5Cache : TCache := cacheSet emptyCache "a.ppy" "first\nsecond"

def c5E : ExcInfo := ⟨true, "a.ppy", some 2, some "orig"⟩

theorem claim_C5_witness :
    c5Cache "a.ppy" = some "first\nsecond" ∧
    handle_exc c5Cache none c5E []
      = .ok ({ c5E with text := some "second" }, []) :=
  ⟨by decide,
    (claim_C5_syntax_error_text c5Cache none c5E [] "first\nsecond" "second" 2).1
      rfl (by decide) (by decide) rfl (by decide) (by decide)⟩

def c5cCache : TCache := cacheSet emptyCache "a.ppy" ""

def c5cE : ExcInfo := ⟨true, "a.ppy", some 1, some "orig"⟩

/-- C5 counterexample to the claim as stated: the failing path is
present in preprocessed_files (with the empty transformed text) and the
error is a SyntaxError, yet the handler leaves the captured text
unchanged, because the source guards on the truthiness of the cache
entry, and the empty string is falsy; the transformed text also has no
line 1 to substitute. -/
theorem claim_C5_cex :
    c5cCache "a.ppy" = some "" ∧ c5cE.isSyntaxError = true ∧
    c5cE.text = some "orig" ∧
    handle_exc c5cCache none c5cE [] = .ok (c5cE, []) ∧
    splitlines "" = [] := by
  refine ⟨by decide, rfl, rfl, by decide, rfl⟩

/-- C7 (amended): PPyPathFinder.invalidate_caches propagates
invalidation to every cached directory finder that supports it, leaves
every entry of _path_importer_cache in place (the dictionary is not
cleared; memoized negative entries stay as well), and leaves
preprocessed_files and the installation flag unchanged. -/
theorem claim_C7_invalidate (s : HookState) (p : String) :
    (PPyPathFinder_invalidate_caches s).preprocessed_files = s.preprocessed_files ∧
    (PPyPathFinder_invalidate_caches s).done = s.done ∧
    ((PPyPathFinder_invalidate_caches s).path_importer_cache p).isSome
      = (s.path_importer_cache p).isSome ∧
    (PPyPathFinder_invalidate_caches s).path_importer_cache p
      = (s.path_importer_cache p).map (Option.map finderInvalidate) ∧
    (∀ f : FinderV, (finderInvalidate f).invalidated
      = (f.supportsInvalidate || f.invalidated)) ∧
    (∀ f : FinderV, f.supportsInvalidate = false → finderInvalidate f = f) := by
  refine ⟨rfl, rfl, ?_, rfl, ?_, ?_⟩
  · simp [PPyPathFinder_invalidate_caches]
  · intro f
    by_cases hf : f.supportsInvalidate = true <;> simp [finderInvalidate, hf]
  · intro f hf
    simp [finderInvalidate, hf]

def c7Finder : FinderV := ⟨0, true, false⟩

def c7State : HookState :=
  ⟨emptyCache, fun p => if p = "/dir" then some (some c7Finder) else none, true⟩

/-- C7 counterexample to the claim as stated: the memoized finder for
one directory is still present in _path_importer_cache after
invalidate_caches (invalidation was propagated to it, but the entry was
not removed), because the source never clears the dictionary. -/
theorem claim_C7_cex :
    c7State.path_importer_cache "/dir" = some (some c7Finder) ∧
    (PPyPathFinder_invalidate_caches c7State).path_importer_cache "/dir"
      = some (some ⟨0, true, true⟩) := by
  exact ⟨by decide, by decide⟩

theorem claim_C7_witness :
    (PPyPathFinder_invalidate_caches c7State).preprocessed_files
      = c7State.preprocessed_files ∧
    (PPyPathFinder_invalidate_caches c7State).path_importer_cache "/dir"
      = (c7State.path_importer_cache "/dir").map (Option.map finderInvalidate) ∧
    finderInvalidate ⟨2, false, false⟩ = ⟨2, false, false⟩ :=
  ⟨(claim_C7_invalidate c7State "/dir").1,
   (claim_C7_invalidate c7State "/dir").2.2.2.1,
   (claim_C7_invalidate c7State "/dir").2.2.2.2.2 ⟨2, false, false⟩ rfl⟩

theorem path_hooksRun_all_decline (path : String) :
    ∀ hooks : List (String → Except PyExc FinderV),
      (∀ h ∈ hooks, h path = .error .importError) →
      PPyPathFinder_path_hooksRun hooks path = .ok none := by
  intro hooks
  induction hooks with
  | nil => intro _; rfl
  | cons h0 rest ih =>
    intro hall
    have h0e := hall h0 (by simp)
    simp only [PPyPathFinder_path_hooksRun, h0e]
    exact ih fun h hm => hall h (by simp [hm])

/-- C9: in PPyPathFinder._path_importer_cache, the empty path key is
resolved against the live working directory on every call; when
obtaining the working directory fails, the lookup returns no resolver
and stores nothing, so the failure is retried next time; every
non-empty key is memoized permanently, a hit returning the stored value
without recomputation, a miss storing whatever _path_hooks produced,
including the negative None obtained when every registered hook
declines with ImportError. -/
theorem claim_C9_resolver_cache (hooks : List (String → Except PyExc FinderV))
    (cwd : Option String) (cache : ICache) (path : String) :
    (path = "" → cwd = none →
      PPyPathFinder_path_importer_cache hooks cwd cache path = (.ok none, cache)) ∧
    (∀ c, path = "" → cwd = some c →
      PPyPathFinder_path_importer_cache hooks cwd cache path
        = lookupOrBuild hooks cache c) ∧
    (path ≠ "" →
      PPyPathFinder_path_importer_cache hooks cwd cache path
        = lookupOrBuild hooks cache path) ∧
    (∀ v, cache path = some v →
      lookupOrBuild hooks cache path = (.ok v, cache)) ∧
    (∀ v, cache path = none → PPyPathFinder_path_hooksRun hooks path = .ok v →
      (lookupOrBuild hooks cache path).1 = .ok v ∧
      (lookupOrBuild hooks cache path).2 path = some v ∧
      ∀ q, q ≠ path → (lookupOrBuild hooks cache path).2 q = cache q) ∧
    ((∀ h ∈ hooks, h path = .error .importError) →
      PPyPathFinder_path_hooksRun hooks path = .ok none) := by
  refine ⟨?_, ?_, ?_, ?_, ?_, path_hooksRun_all_decline path hooks⟩
  · intro hp hc
    simp [PPyPathFinder_path_importer_cache, hp, hc]
  · intro c hp hc
    simp [PPyPathFinder_path_importer_cache, hp, hc]
  · intro hp
    simp [PPyPathFinder_path_importer_cache, hp]
  · intro v hv
    simp [lookupOrBuild, hv]
  · intro v hv hrun
    refine ⟨?_, ?_, ?_⟩
    · simp [lookupOrBuild, hv, hrun]
    · simp [lookupOrBuild, hv, hrun]
    · intro q hq
      simp [lookupOrBuild, hv, hrun, hq]

def c9Hook : String → Except PyExc FinderV :=
  fun p => if p = "/ok" then .ok ⟨1, false, false⟩ else .error .importError

def emptyICache : ICache := fun _ => none

theorem claim_C9_witness :
    PPyPathFinder_path_importer_cache [c9Hook] none emptyICache ""
      = (.ok none, emptyICache) ∧
    PPyPathFinder_path_hooksRun [c9Hook] "/no" = .ok none :=
  ⟨(claim_C9_resolver_cache [c9Hook] none emptyICache "").1 rfl rfl,
   (claim_C9_resolver_cache [c9Hook] none emptyICache "/no").2.2.2.2.2
     (by intro h hm; rw [List.mem_singleton] at hm; subst hm; decide)⟩

@[simp]
theorem stepEvent_load_ok (cache : TCache) (p d : String) :
    stepEvent cache (.load p (.ok d)) = cacheSet cache p d := rfl

@[simp]
theorem stepEvent_load_error (cache : TCache) (p : String) (err : PyExc) :
    stepEvent cache (.load p (.error err)) = cache := rfl

@[simp]
theorem stepEvent_reqLines (cache : TCache) (p : String) :
    stepEvent cache (.reqLines p) = cache := rfl

theorem runEvents_isSome (evs : List Event) (cache : TCache) (p : String) :
    ((runEvents cache evs) p).isSome = true ↔
      (∃ d, Event.load p (.ok d) ∈ evs) ∨ (cache p).isSome = true := by
  induction evs generalizing cache with
  | nil => simp [runEvents]
  | cons e rest ih =>
    unfold runEvents
    cases e with
    | load q outcome =>
      cases outcome with
      | ok d =>
        rw [stepEvent_load_ok, ih]
        by_cases hq : p = q
        · subst hq
          simp only [cacheSet, if_pos rfl, Option.isSome_some]
          constructor
          · intro _; exact .inl ⟨d, by simp⟩
          · intro _; exact .inr rfl
        · have hset : cacheSet cache q d p = cache p := by
            simp [cacheSet, hq]
          rw [hset]
          constructor
          · rintro (⟨d2, hm⟩ | hc)
            · exact .inl ⟨d2, by simp [hm]⟩
            · exact .inr hc
          · rintro (⟨d2, hm⟩ | hc)
            · rcases List.mem_cons.mp hm with heq | hmem
              · exact absurd (congrArg (fun ev => match ev with
                  | Event.load pp _ => pp
                  | Event.reqLines pp => pp) heq) (by simpa using hq)
              · exact .inl ⟨d2, hmem⟩
            · exact .inr hc
      | error err =>
        rw [stepEvent_load_error, ih]
        constructor
        · rintro (⟨d2, hm⟩ | hc)
          · exact .inl ⟨d2, by simp [hm]⟩
          · exact .inr hc
        · rintro (⟨d2, hm⟩ | hc)
          · rcases List.mem_cons.mp hm with heq | hmem
            · exact absurd heq (by simp)
            · exact .inl ⟨d2, hmem⟩
          · exact .inr hc
    | reqLines q =>
      rw [stepEvent_reqLines, ih]
      constructor
      · rintro (⟨d2, hm⟩ | hc)
        · exact .inl ⟨d2, by simp [hm]⟩
        · exact .inr hc
      · rintro (⟨d2, hm⟩ | hc)
        · rcases List.mem_cons.mp hm with heq | hmem
          · exact absurd heq (by simp)
          · exact .inl ⟨d2, hmem⟩
        · exact .inr hc

/-- C8 (amended): with the process lifetime modelled as the sequence of
cache-touching operations since start, a path has an entry in
preprocessed_files exactly when some load of it through
PPyLoader.get_data has returned successfully; a diagnostic-text request
through patched_getlines never creates an entry. -/
theorem claim_C8_cache_iff_loaded (evs : List Event) (p : String) :
    ((runEvents emptyCache evs) p).isSome = true ↔
      ∃ d, Event.load p (.ok d) ∈ evs := by
  rw [runEvents_isSome]
  simp [emptyCache]

/-- C8 counterexample to the claim as stated: a process that only
requested the diagnostic text of a path (one patched_getlines call)
has no entry for that path in preprocessed_files, although the claim
requires one for every path whose diagnostic text was requested at
least once. -/
theorem claim_C8_cex :
    Event.reqLines "a.ppy" ∈ [Event.reqLines "a.ppy"] ∧
    runEvents emptyCache [Event.reqLines "a.ppy"] "a.ppy" = none :=
  ⟨by simp, rfl⟩

theorem install_fresh (s : InstallerState) (c : Config) (h : s.done = false) :
    (install s c).meta_path = MetaEntry.ppyPathFinder :: s.meta_path ∧
    (install s c).path_hooks = s.path_hooks ++ [PathHookE.ppyExtensionHook] ∧
    (install s c).loader_config = c ∧
    (install s c).finder_config = c ∧
    (install s c).done = true := by
  refine ⟨?_, ?_, ?_, ?_, ?_⟩ <;> simp [install, h]

theorem install_wired (s : InstallerState) (c : Config) (h : s.done = true) :
    (install s c).meta_path = s.meta_path ∧
    (install s c).path_hooks = s.path_hooks ∧
    (install s c).loader_config = c ∧
    (install s c).finder_config = c ∧
    (install s c).done = true := by
  refine ⟨?_, ?_, ?_, ?_, ?_⟩ <;> simp [install, h]

theorem foldl_install_wired (cs : List Config) :
    ∀ s : InstallerState, s.done = true →
      (cs.foldl install s).meta_path = s.meta_path ∧
      (cs.foldl install s).path_hooks = s.path_hooks ∧
      (cs.foldl install s).done = true := by
  induction cs with
  | nil => intro s h; exact ⟨rfl, rfl, h⟩
  | cons c0 rest ih =>
    intro s h
    obtain ⟨hm, hp, _, _, hd⟩ := install_wired s c0 h
    rw [List.foldl_cons]
    obtain ⟨hm2, hp2, hd2⟩ := ih (install s c0) hd
    exact ⟨hm2.trans hm, hp2.trans hp, hd2⟩

/-- C1: from a fresh process (installation flag unset, no PPyPathFinder
in sys.meta_path and no extension hook in _path_hooks yet), any run of
N at least 1 install calls wires the process exactly once: afterwards
sys.meta_path holds exactly one PPyPathFinder entry and _path_hooks
exactly one extension hook, and the configuration seen by both
PPyLoader and PPyPathFinder is the one of the last call. -/
theorem claim_C1_install_idempotent (s0 : InstallerState) (cs : List Config)
    (c : Config) (hdone : s0.done = false)
    (hmp : s0.meta_path.count MetaEntry.ppyPathFinder = 0)
    (hph : s0.path_hooks.count PathHookE.ppyExtensionHook = 0) :
    ((cs ++ [c]).foldl install s0).meta_path.count MetaEntry.ppyPathFinder = 1 ∧
    ((cs ++ [c]).foldl install s0).path_hooks.count PathHookE.ppyExtensionHook = 1 ∧
    ((cs ++ [c]).foldl install s0).loader_config = c ∧
    ((cs ++ [c]).foldl install s0).finder_config = c := by
  cases cs with
  | nil =>
    obtain ⟨hm, hp, hl, hf2, _⟩ := install_fresh s0 c hdone
    simp only [List.nil_append, List.foldl_cons, List.foldl_nil]
    rw [hm, hp, hl, hf2]
    refine ⟨?_, ?_, rfl, rfl⟩
    · simp [List.count_cons, hmp]
    · simp [List.count_append, hph]
  | cons c0 rest =>
    obtain ⟨hm1, hp1, _, _, hd1⟩ := install_fresh s0 c0 hdone
    simp only [List.cons_append, List.foldl_cons, List.foldl_append]
    obtain ⟨hm2, hp2, hd2⟩ := foldl_install_wired rest (install s0 c0) hd1
    obtain ⟨hm3, hp3, hl3, hf3, _⟩ :=
      install_wired (rest.foldl install (install s0 c0)) c hd2
    simp only [List.foldl_cons, List.foldl_nil]
    rw [hm3, hm2, hm1, hp3, hp2, hp1, hl3, hf3]
    refine ⟨?_, ?_, rfl, rfl⟩
    · simp [List.count_cons, hmp]
    · simp [List.count_append, hph]

def c1S0 : InstallerState :=
  ⟨false, [MetaEntry.native 0], [PathHookE.native 3], [("x", 1)],
    ⟨false, []⟩, ⟨false, []⟩, false, false⟩

def c1cs : List Config := [⟨true, []⟩]

def c1c : Config := ⟨false, [("k", "v")]⟩

theorem claim_C1_witness :
    c1S0.done = false ∧
    ((c1cs ++ [c1c]).foldl install c1S0).meta_path.count MetaEntry.ppyPathFinder = 1 ∧
    ((c1cs ++ [c1c]).foldl install c1S0).path_hooks.count PathHookE.ppyExtensionHook = 1 ∧
    ((c1cs ++ [c1c]).foldl install c1S0).loader_config = c1c ∧
    ((c1cs ++ [c1c]).foldl install c1S0).finder_config = c1c :=
  ⟨rfl,
   (claim_C1_install_idempotent c1S0 c1cs c1c rfl (by decide) (by decide)).1,
   (claim_C1_install_idempotent c1S0 c1cs c1c rfl (by decide) (by decide)).2.1,
   (claim_C1_install_idempotent c1S0 c1cs c1c rfl (by decide) (by decide)).2.2.1,
   (claim_C1_install_idempotent c1S0 c1cs c1c rfl (by decide) (by decide)).2.2.2⟩

theorem fallbackChainSpec_loader (fullname : String) :
    ∀ l : List Finder, ∀ s : ModSpec,
      fallbackChainSpec fullname l = .ok (some s) → s.loader.isSome = true := by
  intro l
  induction l with
  | nil =>
    intro s h
    exact absurd h (by simp [fallbackChainSpec])
  | cons f rest ih =>
    intro s h
    unfold fallbackChainSpec at h
    by_cases hppy : f.isPPy = true
    · rw [if_pos hppy] at h
      exact ih s h
    · rw [if_neg hppy] at h
      cases hra : resolverAttempt fullname f with
      | error e =>
        simp only [hra] at h
        exact Except.noConfusion h
      | ok r =>
        simp only [hra] at h
        by_cases hu : specUsable r = true
        · rw [if_pos hu] at h
          simp only [Except.ok.injEq] at h
          rw [h] at hu
          simpa [specUsable] using hu
        · rw [if_neg hu] at h
          exact ih s h

theorem find_spec_fallback_aux_eq_chainSpec (fullname : String) :
    ∀ l : List Finder, ∀ spec : Option ModSpec, specUsable spec = false →
      find_spec_fallback_aux fullname l spec = fallbackChainSpec fullname l := by
  intro l
  induction l with
  | nil => intro spec _; rfl
  | cons f rest ih =>
    intro spec hs
    unfold find_spec_fallback_aux fallbackChainSpec
    by_cases hppy : f.isPPy = true
    · rw [if_pos hppy, if_pos hppy]
      exact ih spec hs
    · rw [if_neg hppy, if_neg hppy]
      cases hfs : f.findSpec with
      | ok s =>
        simp only [resolverAttempt, hfs]
        by_cases hu : specUsable s = true
        · rw [if_pos hu, if_pos hu]
        · rw [if_neg hu, if_neg hu]
          exact ih s (by simpa using hu)
      | error e =>
        cases e with
        | attributeError =>
          simp only [resolverAttempt, hfs]
          cases hfm : f.findModule with
          | ok lo =>
            cases lo with
            | some lid =>
              simp [specUsable, spec_from_loader]
            | none =>
              rw [if_neg (by simp [hs])]
              exact ih spec hs
          | error e2 => rfl
        | importError => simp only [resolverAttempt, hfs]
        | fileNotFoundError => simp only [resolverAttempt, hfs]
        | indexError => simp only [resolverAttempt, hfs]
        | typeError => simp only [resolverAttempt, hfs]
        | other id => simp only [resolverAttempt, hfs]

/-- C3: with prefer_python set, PPyPathFinder.find_spec first runs
find_spec_fallback, whose behavior coincides with the FallbackChain
description: iterate every globally registered finder except
PPyPathFinder itself, query each through the modern find_spec
interface, adapt the legacy find_module loader into a spec when the
modern interface is absent, swallow only the AttributeError of an
unsupported interface while every other exception propagates, and
return the first spec with a non-empty loader; such a spec is returned
immediately, taking priority over the inherited extension search. -/
theorem claim_C3_fallback_precedence (config : Config) (fullname : String)
    (metaPath : List Finder) (superSpec : Option ModSpec)
    (hpref : config.prefer_python = true) :
    find_spec_fallback fullname metaPath = fallbackChainSpec fullname metaPath ∧
    ∀ s, find_spec_fallback fullname metaPath = .ok (some s) →
      s.loader.isSome = true ∧
      PPyPathFinder_find_spec config fullname metaPath superSpec
        = .ok (some s) := by
  have heq : find_spec_fallback fullname metaPath
      = fallbackChainSpec fullname metaPath :=
    find_spec_fallback_aux_eq_chainSpec fullname metaPath none rfl
  refine ⟨heq, ?_⟩
  intro s hfb
  refine ⟨fallbackChainSpec_loader fullname metaPath s (heq ▸ hfb), ?_⟩
  simp [PPyPathFinder_find_spec, hpref, hfb]

def c3PPy : Finder := ⟨true, .ok none, .ok none⟩

def c3Legacy : Finder := ⟨false, .error .attributeError, .ok (some 5)⟩

def c3Config : Config := ⟨true, []⟩

theorem claim_C3_witness :
    c3Config.prefer_python = true ∧
    find_spec_fallback "m" [c3PPy, c3Legacy] = .ok (some ⟨"m", some 5⟩) ∧
    PPyPathFinder_find_spec c3Config "m" [c3PPy, c3Legacy] none
      = .ok (some ⟨"m", some 5⟩) :=
  ⟨rfl, by decide,
   ((claim_C3_fallback_precedence c3Config "m" [c3PPy, c3Legacy] none rfl).2
     ⟨"m", some 5⟩ (by decide)).2⟩

end PWCP
